import Mathlib

/-!
A shallow embedding of the graph core of the repository
(src/graph_tools_playground/graph.py) together with theorems settling the
behavioural claims about ingestion and clique enumeration.

Modelling conventions:
* A text source is an `Option (List String)`: `none` models a path that does
  not resolve, `some lines` models the resolved file split into lines.
* Python dicts are modelled as insertion-ordered association lists, with
  lookup returning the first matching entry, assignment replacing the first
  matching entry in place (keeping its position) or appending a fresh entry
  at the end, exactly as CPython dicts behave.
* Python exceptions are modelled by the `IngestError` sum type; a stateful
  operation returns the mutated-so-far state together with an optional
  error, because the Python code mutates the graph in place and an exception
  leaves the mutations performed before it committed.
* The networkx library primitives used by the code are embedded by their
  documented semantics: node views raise a key error for an absent node,
  `add_nodes_from` with (node, dict) pairs merges attribute dicts by key,
  `add_edge` appends a parallel edge, `Graph.add_edges_from` raises
  `NetworkXError` on an edge that is not a 2-tuple or 3-tuple (a self-loop
  collapsed to a 1-element frozenset), and `enumerate_all_cliques` returns
  every non-empty pairwise-connected subset of the nodes of the (simple,
  undirected) graph it is given.
-/

/-- One step of whitespace tokenisation over the character list of a line;
the accumulator holds the characters of the current token in reverse.
Mirrors the Python `str.split()` (no separator: runs of whitespace split,
no empty tokens). -/
def tokensAux : List Char → List Char → List String
  | [], [] => []
  | [], cur => [String.mk cur.reverse]
  | c :: cs, cur =>
    if c.isWhitespace then
      match cur with
      | [] => tokensAux cs []
      | _ => String.mk cur.reverse :: tokensAux cs []
    else tokensAux cs (c :: cur)

/-- Whitespace tokenisation of a line, mirroring Python `str.split()`. -/
def tokens (s : String) : List String := tokensAux s.data []

/-- Strip leading and trailing whitespace, mirroring Python `str.strip()`. -/
def strip (s : String) : String :=
  String.mk (((s.data.dropWhile Char.isWhitespace).reverse.dropWhile Char.isWhitespace).reverse)

/-- Join a list of strings with single spaces, mirroring `" ".join(...)`. -/
def joinSpace : List String → String
  | [] => ""
  | [x] => x
  | x :: xs => x ++ " " ++ joinSpace xs

example : tokens "FRIENDS_WITH    A       Person  C       Person" =
    ["FRIENDS_WITH", "A", "Person", "C", "Person"] := by decide

example : strip "  a b  " = "a b" := by decide

/-- An attribute map of a node: an insertion-ordered association list from
attribute names to values, modelling a Python dict of strings. -/
abbrev AttrMap := List (String × String)

/-- Dict lookup: value at the first entry with the given key. -/
def getAttr : AttrMap → String → Option String
  | [], _ => none
  | (k', v) :: rest, k => if k' = k then some v else getAttr rest k

/-- Dict assignment `d[k] = v`: replace the first entry with key `k` in
place, or append a fresh entry at the end. -/
def setAttr : AttrMap → String → String → AttrMap
  | [], k, v => [(k, v)]
  | (k', v') :: rest, k, v =>
    if k' = k then (k, v) :: rest else (k', v') :: setAttr rest k v

/-- Dict `d.setdefault(k, v)`: keep the map unchanged when the key is
present, otherwise append the entry. -/
def setdefaultAttr (d : AttrMap) (k v : String) : AttrMap :=
  match getAttr d k with
  | some _ => d
  | none => d ++ [(k, v)]

/-- Apply a list of keyed assignments in order (`d.update(m)` on dicts). -/
def applyAttrs : AttrMap → AttrMap → AttrMap
  | d, [] => d
  | d, (k, v) :: m => applyAttrs (setAttr d k v) m

/-- The node table of the graph: an insertion-ordered association list from
node IDs to attribute maps (the `_node` dict of a networkx graph). -/
abbrev NodeTable := List (String × AttrMap)

/-- Lookup of a node attribute map by ID (first matching entry). -/
def lookupNode : NodeTable → String → Option AttrMap
  | [], _ => none
  | (id', m) :: rest, id => if id' = id then some m else lookupNode rest id

/-- Replace the first entry of the node table with the given ID in place, or
append a fresh entry at the end (dict assignment on the node table). -/
def setNode : NodeTable → String → AttrMap → NodeTable
  | [], id, m => [(id, m)]
  | (id', m') :: rest, id, m =>
    if id' = id then (id, m) :: rest else (id', m') :: setNode rest id m

/-- The state of `ChallengeGraph`, a `networkx.MultiDiGraph` subclass:
nodes with attribute maps, and a list of directed labeled edges
(source, target, relation label) in insertion order.  Parallel edges are
kept as separate list entries, matching multigraph keys. -/
structure ChallengeGraph where
  nodes : NodeTable
  edges : List (String × String × String)
deriving DecidableEq

/-- The empty graph (`ChallengeGraph()`). -/
def ChallengeGraph.empty : ChallengeGraph := ⟨[], []⟩

/-- The Python exceptions the ingestion paths can raise. -/
inductive IngestError where
  /-- `FileNotFoundError`: the source path does not resolve. -/
  | sourceNotFound
  /-- `StopIteration` escaping from the header skip on a zero-line file. -/
  | stopIteration
  /-- `IndexError` from subscripting a too-short token list of a property
  line; carries the (stripped) offending line. -/
  | indexError (line : String)
  /-- `errors.InvalidRelationshipLine`; carries the message built from the
  (stripped) offending line. -/
  | invalidRelationshipLine (msg : String)
  /-- `KeyError` from `self.nodes[id]` on an ID absent from the node table. -/
  | keyError (id : String)
deriving DecidableEq

/-- `ChallengeGraph.parse_property_line`: split the line and take
`tokens[0]`, `tokens[1]` and the space-join of the rest; `none` models the
`IndexError` thrown when the line has fewer than two tokens. -/
def parse_property_line (line : String) : Option (String × String × String) :=
  match tokens line with
  | id :: property :: rest => some (id, property, joinSpace rest)
  | _ => none

/-- `ChallengeGraph.parse_relationship_line`: require exactly five
whitespace tokens, else raise `InvalidRelationshipLine` naming the line. -/
def parse_relationship_line (line : String) :
    Except IngestError (String × String × String × String × String) :=
  match tokens line with
  | [rel, id1, type1, id2, type2] => .ok (rel, id1, type1, id2, type2)
  | _ => .error (.invalidRelationshipLine ("Error processing relationship: " ++ line))

/-- The parsing loop of `add_properties_from_file`: strip each line, skip
blanks, parse the rest and group the records by ID into
`parsed_entities[id][property] = value` (a defaultdict of dicts, ordered by
first mention of each ID). -/
def insertProp : List (String × AttrMap) → String → String → String → List (String × AttrMap)
  | [], id, property, value => [(id, [(property, value)])]
  | (id', m) :: rest, id, property, value =>
    if id' = id then (id', setAttr m property value) :: rest
    else (id', m) :: insertProp rest id property value

/-- Parse the data lines of a property source into the grouped record list,
stopping with an `IndexError` at the first non-blank line with fewer than
two tokens. -/
def parseProps : List String → List (String × AttrMap) →
    Except IngestError (List (String × AttrMap))
  | [], acc => .ok acc
  | line :: rest, acc =>
    let l := strip line
    if l = "" then parseProps rest acc
    else
      match parse_property_line l with
      | some (id, property, value) => parseProps rest (insertProp acc id property value)
      | none => .error (.indexError l)

/-- `networkx.add_nodes_from` over `(id, attrs)` pairs: for each pair, merge
the attribute dict into the existing node attributes by key (creating the
node when absent). -/
def add_nodes_from : ChallengeGraph → List (String × AttrMap) → ChallengeGraph
  | g, [] => g
  | g, (id, m) :: rest =>
    add_nodes_from
      { g with nodes := setNode g.nodes id (applyAttrs ((lookupNode g.nodes id).getD []) m) }
      rest

/-- `ChallengeGraph.add_properties_from_file`.  The whole source is parsed
into `parsed_entities` before any mutation; the node table is only touched
on full parsing success. -/
def add_properties_from_file (g : ChallengeGraph) (src : Option (List String)) :
    ChallengeGraph × Option IngestError :=
  match src with
  | none => (g, some .sourceNotFound)
  | some [] => (g, some .stopIteration)
  | some (_header :: dataLines) =>
    match parseProps dataLines [] with
    | .error e => (g, some e)
    | .ok parsed => (add_nodes_from g parsed, none)

/-- `networkx.add_edge` on a multi-digraph: create absent endpoints with an
empty attribute map and append the labeled edge. -/
def add_edge (g : ChallengeGraph) (id1 id2 rel : String) : ChallengeGraph :=
  let g1 : ChallengeGraph :=
    match lookupNode g.nodes id1 with
    | some _ => g
    | none => { g with nodes := g.nodes ++ [(id1, [])] }
  let g2 : ChallengeGraph :=
    match lookupNode g1.nodes id2 with
    | some _ => g1
    | none => { g1 with nodes := g1.nodes ++ [(id2, [])] }
  { g2 with edges := g2.edges ++ [(id1, id2, rel)] }

/-- The write-back of `self.nodes[id].setdefault("Type", ty)` once the node
attribute dict `m` of `id` has been fetched: the dict keeps an existing
`Type` and gains the entry otherwise. -/
def setTypeDefault (g : ChallengeGraph) (id ty : String) (m : AttrMap) : ChallengeGraph :=
  { g with nodes := setNode g.nodes id (setdefaultAttr m "Type" ty) }

/-- One iteration of the `add_relationships_from_file` loop on a raw line:
strip it, skip it when blank, parse it, then evaluate
`self.nodes[id1].setdefault("Type", type1)` (a key error when `id1` is not
a node), the same for `id2`, and finally `self.add_edge(id1, id2, rel)`.
The returned state keeps every mutation performed before an error. -/
def processRelLine (g : ChallengeGraph) (line : String) :
    ChallengeGraph × Option IngestError :=
  if strip line = "" then (g, none)
  else
    match parse_relationship_line (strip line) with
    | .error e => (g, some e)
    | .ok (rel, id1, type1, id2, type2) =>
      match lookupNode g.nodes id1 with
      | none => (g, some (.keyError id1))
      | some m1 =>
        match lookupNode (setTypeDefault g id1 type1 m1).nodes id2 with
        | none => (setTypeDefault g id1 type1 m1, some (.keyError id2))
        | some m2 =>
          (add_edge (setTypeDefault (setTypeDefault g id1 type1 m1) id2 type2 m2) id1 id2 rel,
            none)

/-- The line loop of `add_relationships_from_file`: process the data lines
in order, stopping at (and keeping the state reached before) the first
error. -/
def addRelLines : ChallengeGraph → List String → ChallengeGraph × Option IngestError
  | g, [] => (g, none)
  | g, line :: rest =>
    match processRelLine g line with
    | (g', none) => addRelLines g' rest
    | (g', some e) => (g', some e)

/-- `ChallengeGraph.add_relationships_from_file`. -/
def add_relationships_from_file (g : ChallengeGraph) (src : Option (List String)) :
    ChallengeGraph × Option IngestError :=
  match src with
  | none => (g, some .sourceNotFound)
  | some [] => (g, some .stopIteration)
  | some (_header :: dataLines) => addRelLines g dataLines

/-- The edge-projection loop of `find_friend_cliques`: the set of frozensets
`{n1, n2}` over the directed edges whose relation label is `FRIENDS_WITH`. -/
def friendEdges (g : ChallengeGraph) : Finset (Finset String) :=
  ((g.edges.filter (fun e => e.2.2 == "FRIENDS_WITH")).map
    (fun e => ({e.1, e.2.1} : Finset String))).toFinset

/-- `self.nodes[n].get("Type")`: the `Type` attribute of a node, when the
node and the attribute exist. -/
def nodeType (g : ChallengeGraph) (n : String) : Option String :=
  (lookupNode g.nodes n).bind (fun m => getAttr m "Type")

/-- The edge-projection loop of `find_person_cliques`: the set of frozensets
`{n1, n2}` over the directed edges both of whose endpoints have the `Type`
attribute equal to `Person`. -/
def personEdges (g : ChallengeGraph) : Finset (Finset String) :=
  ((g.edges.filter
      (fun e => nodeType g e.1 == some "Person" && nodeType g e.2.1 == some "Person")).map
    (fun e => ({e.1, e.2.1} : Finset String))).toFinset

/-- The node set of the derived undirected graph built by
`nx.Graph(); G.add_edges_from(edges)`: every endpoint of a surviving
undirected edge. -/
def derivedNodes (E : Finset (Finset String)) : Finset String := E.sup id

/-- Embedding of the library primitive
`nx.algorithms.clique.enumerate_all_cliques`, by its documented contract on
the derived undirected simple graph: the collection of all cliques, one per
non-empty subset of the nodes whose members are pairwise joined by a
surviving undirected edge (not only the maximal ones). -/
def enumerate_all_cliques (E : Finset (Finset String)) : Finset (Finset String) :=
  (derivedNodes E).powerset.filter
    (fun s => s.Nonempty ∧ ∀ a ∈ s, ∀ b ∈ s, a ≠ b → ({a, b} : Finset String) ∈ E)

/-- `G = nx.Graph(); G.add_edges_from(edges)`: networkx unpacks every edge
of the set as a 2-tuple (or 3-tuple), so a self-loop that collapsed to a
1-element frozenset makes it raise `NetworkXError`; `none` models that
exception, `some` returns the edge set of the built undirected graph. -/
def buildUndirected (E : Finset (Finset String)) : Option (Finset (Finset String)) :=
  if E.filter (fun e => ¬e.card = 2) = ∅ then some E else none

/-- `ChallengeGraph.find_friend_cliques`: project, build the undirected
graph (which raises on a surviving self-loop), then enumerate. -/
def find_friend_cliques (g : ChallengeGraph) : Option (Finset (Finset String)) :=
  (buildUndirected (friendEdges g)).map enumerate_all_cliques

/-- `ChallengeGraph.find_person_cliques`: project, build the undirected
graph (which raises on a surviving self-loop), then enumerate. -/
def find_person_cliques (g : ChallengeGraph) : Option (Finset (Finset String)) :=
  (buildUndirected (personEdges g)).map enumerate_all_cliques

/-- The lines of the property file of the clique test scenario. -/
def triPropLines : List String :=
  ["ID      Property        Value",
   "A       Name            Frank",
   "B       Name            Ally",
   "C       Name            Oscar"]

/-- The lines of the relationship file of the clique test scenario: a
triangle of `FRIENDS_WITH` edges between three persons. -/
def triRelLines : List String :=
  ["Relationship    ID1     Type1   ID2     Type2",
   "FRIENDS_WITH    A       Person  C       Person",
   "FRIENDS_WITH    A       Person  B       Person",
   "FRIENDS_WITH    B       Person  C       Person"]

/-- The store populated from the two triangle sources. -/
def triGraph : ChallengeGraph :=
  (add_relationships_from_file
    (add_properties_from_file ChallengeGraph.empty (some triPropLines)).1
    (some triRelLines)).1

/-- The seven expected cliques of the triangle scenario. -/
def triCliques : Finset (Finset String) :=
  {{"A"}, {"B"}, {"C"}, {"A", "B"}, {"A", "C"}, {"B", "C"}, {"A", "B", "C"}}

example : (add_properties_from_file ChallengeGraph.empty (some triPropLines)).2 = none := by
  decide

example : triCliques.card = 7 := by decide

/-- On the triangle store the friend projection has no self-loop, so the
derived graph is built and the enumeration returns the seven cliques. -/
theorem find_friend_cliques_triGraph : find_friend_cliques triGraph = some triCliques := by
  unfold find_friend_cliques
  rw [show buildUndirected (friendEdges triGraph) = some (friendEdges triGraph) from by decide,
    Option.map_some',
    show enumerate_all_cliques (friendEdges triGraph) = triCliques from by decide]

/-- On the triangle store the person projection has no self-loop either and
yields the same seven cliques. -/
theorem find_person_cliques_triGraph : find_person_cliques triGraph = some triCliques := by
  unfold find_person_cliques
  rw [show buildUndirected (personEdges triGraph) = some (personEdges triGraph) from by decide,
    Option.map_some',
    show enumerate_all_cliques (personEdges triGraph) = triCliques from by decide]

/-! ### Dictionary lemmas

Facts about the association-list model of Python dicts, used to prove the
idempotence of property ingestion. -/

/-- The key list of an attribute map. -/
def attrKeys (m : AttrMap) : List String := m.map Prod.fst

theorem getAttr_setAttr_self (d : AttrMap) (k v : String) :
    getAttr (setAttr d k v) k = some v := by
  induction d with
  | nil => simp [setAttr, getAttr]
  | cons kv rest ih =>
    obtain ⟨k', v'⟩ := kv
    by_cases h : k' = k
    · simp [setAttr, h, getAttr]
    · simp [setAttr, h, getAttr, ih]

theorem getAttr_setAttr_ne (d : AttrMap) {k k' : String} (h : k' ≠ k) (v : String) :
    getAttr (setAttr d k' v) k = getAttr d k := by
  induction d with
  | nil => simp [setAttr, getAttr, h]
  | cons kv rest ih =>
    obtain ⟨k₀, v₀⟩ := kv
    by_cases h₀ : k₀ = k'
    · simp [setAttr, h₀, getAttr, h, h₀ ▸ h]
    · simp only [setAttr, h₀, if_false, getAttr]
      by_cases h₁ : k₀ = k
      · simp [h₁]
      · simp [h₁, ih]

theorem setAttr_getAttr_eq {d : AttrMap} {k v : String} (h : getAttr d k = some v) :
    setAttr d k v = d := by
  induction d with
  | nil => simp [getAttr] at h
  | cons kv rest ih =>
    obtain ⟨k₀, v₀⟩ := kv
    by_cases h₀ : k₀ = k
    · simp only [getAttr, h₀, if_true, Option.some.injEq] at h
      simp [setAttr, h₀, h]
    · simp only [getAttr, h₀, if_false] at h
      simp [setAttr, h₀, ih h]

theorem getAttr_applyAttrs_not_mem {m : AttrMap} {k : String}
    (h : k ∉ attrKeys m) (d : AttrMap) :
    getAttr (applyAttrs d m) k = getAttr d k := by
  induction m generalizing d with
  | nil => simp [applyAttrs]
  | cons kv rest ih =>
    obtain ⟨k₀, v₀⟩ := kv
    simp only [attrKeys, List.map_cons, List.mem_cons, not_or] at h
    simp only [applyAttrs]
    rw [ih h.2, getAttr_setAttr_ne _ (fun hh => h.1 hh.symm)]

theorem applyAttrs_mem_getAttr {m : AttrMap} (hnd : (attrKeys m).Nodup)
    {k v : String} (hm : (k, v) ∈ m) (d : AttrMap) :
    getAttr (applyAttrs d m) k = some v := by
  induction m generalizing d with
  | nil => simp at hm
  | cons kv rest ih =>
    obtain ⟨k₀, v₀⟩ := kv
    simp only [attrKeys, List.map_cons, List.nodup_cons] at hnd
    rcases List.mem_cons.mp hm with h | h
    · cases h
      simp only [applyAttrs]
      rw [getAttr_applyAttrs_not_mem hnd.1, getAttr_setAttr_self]
    · simp only [applyAttrs]
      exact ih hnd.2 h _

theorem applyAttrs_fixed {m d : AttrMap} (h : ∀ kv ∈ m, getAttr d kv.1 = some kv.2) :
    applyAttrs d m = d := by
  induction m with
  | nil => rfl
  | cons kv rest ih =>
    obtain ⟨k₀, v₀⟩ := kv
    simp only [applyAttrs]
    rw [setAttr_getAttr_eq (h (k₀, v₀) (List.mem_cons_self _ _))]
    exact ih fun kv hkv => h kv (List.mem_cons_of_mem _ hkv)

/-- Re-applying the same attribute updates is a no-op: the merged maps of a
property source have pairwise-distinct keys, so after one application every
entry already holds its final value. -/
theorem applyAttrs_idem {m : AttrMap} (hnd : (attrKeys m).Nodup) (d : AttrMap) :
    applyAttrs (applyAttrs d m) m = applyAttrs d m :=
  applyAttrs_fixed fun kv hkv => applyAttrs_mem_getAttr hnd (by simpa using hkv) d

theorem attrKeys_setAttr_mem {m : AttrMap} {k : String} (h : k ∈ attrKeys m) (v : String) :
    attrKeys (setAttr m k v) = attrKeys m := by
  induction m with
  | nil => simp [attrKeys] at h
  | cons kv rest ih =>
    obtain ⟨k₀, v₀⟩ := kv
    by_cases h₀ : k₀ = k
    · simp [setAttr, h₀, attrKeys]
    · simp only [attrKeys, List.map_cons, List.mem_cons] at h
      rcases h with h | h
      · exact absurd h.symm h₀
      · simp only [setAttr, h₀, if_false, attrKeys, List.map_cons, List.cons.injEq, true_and]
        exact ih h

theorem attrKeys_setAttr_not_mem {m : AttrMap} {k : String} (h : k ∉ attrKeys m) (v : String) :
    attrKeys (setAttr m k v) = attrKeys m ++ [k] := by
  induction m with
  | nil => simp [setAttr, attrKeys]
  | cons kv rest ih =>
    obtain ⟨k₀, v₀⟩ := kv
    simp only [attrKeys, List.map_cons, List.mem_cons, not_or] at h
    have hne : ¬k₀ = k := fun hh => h.1 hh.symm
    simp only [setAttr, hne, if_false, attrKeys, List.map_cons, List.cons_append,
      List.cons.injEq, true_and]
    exact ih h.2

theorem nodup_attrKeys_setAttr {m : AttrMap} (hnd : (attrKeys m).Nodup) (k v : String) :
    (attrKeys (setAttr m k v)).Nodup := by
  by_cases h : k ∈ attrKeys m
  · rw [attrKeys_setAttr_mem h]; exact hnd
  · rw [attrKeys_setAttr_not_mem h]
    simp [List.nodup_append, hnd, h]

/-! ### Node-table lemmas -/

theorem lookupNode_setNode_self (ns : NodeTable) (id : String) (m : AttrMap) :
    lookupNode (setNode ns id m) id = some m := by
  induction ns with
  | nil => simp [setNode, lookupNode]
  | cons p rest ih =>
    obtain ⟨id₀, m₀⟩ := p
    by_cases h : id₀ = id
    · simp [setNode, h, lookupNode]
    · simp [setNode, h, lookupNode, ih]

theorem lookupNode_setNode_ne (ns : NodeTable) {id id' : String} (h : id' ≠ id) (m : AttrMap) :
    lookupNode (setNode ns id' m) id = lookupNode ns id := by
  induction ns with
  | nil => simp [setNode, lookupNode, h]
  | cons p rest ih =>
    obtain ⟨id₀, m₀⟩ := p
    by_cases h₀ : id₀ = id'
    · simp [setNode, h₀, lookupNode, h, h₀ ▸ h]
    · simp only [setNode, h₀, if_false, lookupNode]
      by_cases h₁ : id₀ = id
      · simp [h₁]
      · simp [h₁, ih]

theorem setNode_lookup_eq {ns : NodeTable} {id : String} {m : AttrMap}
    (h : lookupNode ns id = some m) : setNode ns id m = ns := by
  induction ns with
  | nil => simp [lookupNode] at h
  | cons p rest ih =>
    obtain ⟨id₀, m₀⟩ := p
    by_cases h₀ : id₀ = id
    · simp only [lookupNode, h₀, if_true, Option.some.injEq] at h
      simp [setNode, h₀, h]
    · simp only [lookupNode, h₀, if_false] at h
      simp [setNode, h₀, ih h]

/-- Updating the record of one ID leaves the lookup of every other ID
unchanged, so distinct property records commute past each other. -/
theorem add_nodes_from_lookup_not_mem {P : List (String × AttrMap)} {id : String}
    (h : id ∉ P.map Prod.fst) (g : ChallengeGraph) :
    lookupNode (add_nodes_from g P).nodes id = lookupNode g.nodes id := by
  induction P generalizing g with
  | nil => rfl
  | cons p P' ih =>
    obtain ⟨id₀, m₀⟩ := p
    simp only [List.map_cons, List.mem_cons, not_or] at h
    simp only [add_nodes_from]
    rw [ih h.2]
    exact lookupNode_setNode_ne _ (fun hh => h.1 hh.symm) _

/-- A record list is a fixed point of a node table: each listed ID holds an
attribute map the record no longer changes. -/
def NodesFixed (ns : NodeTable) (P : List (String × AttrMap)) : Prop :=
  ∀ p ∈ P, ∃ d, lookupNode ns p.1 = some d ∧ applyAttrs d p.2 = d

theorem add_nodes_from_fixed :
    ∀ P : List (String × AttrMap), (P.map Prod.fst).Nodup →
      (∀ p ∈ P, (attrKeys p.2).Nodup) →
      ∀ g : ChallengeGraph, NodesFixed (add_nodes_from g P).nodes P := by
  intro P
  induction P with
  | nil => intro _ _ g p hp; simp at hp
  | cons p P' ih =>
    obtain ⟨id₀, m₀⟩ := p
    intro hnd hkeys g q hq
    simp only [List.map_cons, List.nodup_cons] at hnd
    rcases List.mem_cons.mp hq with rfl | hq'
    · refine ⟨applyAttrs ((lookupNode g.nodes id₀).getD []) m₀, ?_, ?_⟩
      · simp only [add_nodes_from]
        rw [add_nodes_from_lookup_not_mem hnd.1]
        exact lookupNode_setNode_self _ _ _
      · exact applyAttrs_idem (hkeys _ (List.mem_cons_self _ _)) _
    · simp only [add_nodes_from]
      exact ih hnd.2 (fun r hr => hkeys r (List.mem_cons_of_mem _ hr)) _ q hq'

theorem add_nodes_from_of_fixed :
    ∀ (P : List (String × AttrMap)) (g : ChallengeGraph),
      NodesFixed g.nodes P → add_nodes_from g P = g := by
  intro P
  induction P with
  | nil => intro g _; rfl
  | cons p P' ih =>
    obtain ⟨id₀, m₀⟩ := p
    intro g h
    obtain ⟨d, hd, hfix⟩ := h (id₀, m₀) (List.mem_cons_self _ _)
    simp only [add_nodes_from, hd, Option.getD_some, hfix, setNode_lookup_eq hd]
    exact ih g fun q hq => h q (List.mem_cons_of_mem _ hq)

/-- Merging the same grouped records twice gives the same node table as
merging them once (the records of a parsed property source have distinct
IDs and distinct keys per ID). -/
theorem add_nodes_from_idem {P : List (String × AttrMap)}
    (hnd : (P.map Prod.fst).Nodup) (hkeys : ∀ p ∈ P, (attrKeys p.2).Nodup)
    (g : ChallengeGraph) :
    add_nodes_from (add_nodes_from g P) P = add_nodes_from g P :=
  add_nodes_from_of_fixed P _ (add_nodes_from_fixed P hnd hkeys g)

/-! ### Parsed property records are well formed -/

/-- Well-formedness of grouped property records: pairwise-distinct IDs, and
pairwise-distinct keys inside each attribute map, as holds of a Python
dict of dicts. -/
def PropsWF (P : List (String × AttrMap)) : Prop :=
  (P.map Prod.fst).Nodup ∧ ∀ p ∈ P, (attrKeys p.2).Nodup

theorem insertProp_ids (acc : List (String × AttrMap)) (id property value : String) :
    (insertProp acc id property value).map Prod.fst =
      if id ∈ acc.map Prod.fst then acc.map Prod.fst else acc.map Prod.fst ++ [id] := by
  induction acc with
  | nil => simp [insertProp]
  | cons p rest ih =>
    obtain ⟨id₀, m₀⟩ := p
    by_cases h : id₀ = id
    · simp [insertProp, h]
    · have hne : ¬id = id₀ := fun hh => h hh.symm
      by_cases hmem : id ∈ rest.map Prod.fst
      · simp [insertProp, h, ih, hmem, hne]
      · simp [insertProp, h, ih, hmem, hne]

theorem insertProp_maps :
    ∀ acc : List (String × AttrMap), (∀ p ∈ acc, (attrKeys p.2).Nodup) →
      ∀ (id property value : String), ∀ q ∈ insertProp acc id property value,
        (attrKeys q.2).Nodup := by
  intro acc
  induction acc with
  | nil =>
    intro _ id property value q hq
    simp only [insertProp, List.mem_singleton] at hq
    subst hq
    simp [attrKeys]
  | cons p rest ih =>
    obtain ⟨id₀, m₀⟩ := p
    intro h id property value q hq
    by_cases h₀ : id₀ = id
    · simp only [insertProp, h₀, if_true, List.mem_cons] at hq
      rcases hq with rfl | hq
      · exact nodup_attrKeys_setAttr (h (id₀, m₀) (List.mem_cons_self _ _)) _ _
      · exact h q (List.mem_cons_of_mem _ hq)
    · simp only [insertProp, h₀, if_false, List.mem_cons] at hq
      rcases hq with rfl | hq
      · exact h (id₀, m₀) (List.mem_cons_self _ _)
      · exact ih (fun r hr => h r (List.mem_cons_of_mem _ hr)) id property value q hq

theorem insertProp_wf {acc : List (String × AttrMap)} (hwf : PropsWF acc)
    (id property value : String) : PropsWF (insertProp acc id property value) := by
  constructor
  · rw [insertProp_ids]
    by_cases hmem : id ∈ acc.map Prod.fst
    · simpa [hmem] using hwf.1
    · simp only [hmem, if_false]
      simp [List.nodup_append, hwf.1, hmem]
  · exact insertProp_maps acc hwf.2 id property value

theorem parseProps_wf :
    ∀ (ls : List String) (acc P : List (String × AttrMap)),
      parseProps ls acc = .ok P → PropsWF acc → PropsWF P := by
  intro ls
  induction ls with
  | nil =>
    intro acc P h hwf
    simp only [parseProps, Except.ok.injEq] at h
    exact h ▸ hwf
  | cons line rest ih =>
    intro acc P h hwf
    simp only [parseProps] at h
    by_cases hb : strip line = ""
    · rw [if_pos hb] at h
      exact ih acc P h hwf
    · rw [if_neg hb] at h
      cases hp : parse_property_line (strip line) with
      | none => rw [hp] at h; cases h
      | some t =>
        obtain ⟨id, property, value⟩ := t
        rw [hp] at h
        exact ih _ P h (insertProp_wf hwf id property value)

/-- Claim C3 (property ingestion is idempotent).  Property ingestion parses
the whole source into grouped records before touching the store, and a
second merge of the same grouped records changes no attribute map, so
re-running `add_properties_from_file` on any store and any source gives the
very same store and outcome. -/
theorem add_properties_idempotent (g : ChallengeGraph) (src : Option (List String)) :
    add_properties_from_file (add_properties_from_file g src).1 src =
      add_properties_from_file g src := by
  match src with
  | none => rfl
  | some [] => rfl
  | some (header :: dataLines) =>
    cases hp : parseProps dataLines [] with
    | error e =>
      simp [add_properties_from_file, hp]
    | ok P =>
      have hwf : PropsWF P := parseProps_wf dataLines [] P hp ⟨List.nodup_nil, by simp⟩
      simp [add_properties_from_file, hp, add_nodes_from_idem hwf.1 hwf.2]

/-! ### Relationship-ingestion lemmas -/

/-- A node ID is present in the store (the `id in self.nodes` test). -/
def hasNode (g : ChallengeGraph) (id : String) : Bool :=
  (lookupNode g.nodes id).isSome

/-- The directed edge a relationship data line describes, when it has the
five-token shape; blank and malformed lines describe none. -/
def lineEdge (line : String) : List (String × String × String) :=
  match tokens (strip line) with
  | [rel, id1, _, id2, _] => [(id1, id2, rel)]
  | _ => []

/-- All directed edges described by a list of relationship data lines. -/
def linesEdges : List String → List (String × String × String)
  | [] => []
  | l :: ls => lineEdge l ++ linesEdges ls

/-- The number of stored directed edges between an ordered pair of IDs
(any relation label, parallel edges counted with multiplicity). -/
def edgeCount (g : ChallengeGraph) (a b : String) : Nat :=
  (g.edges.filter (fun e => e.1 == a && e.2.1 == b)).length

/-- The number of edges between an ordered pair described by the data lines
of a relationship source. -/
def srcEdgeCount (ds : List String) (a b : String) : Nat :=
  ((linesEdges ds).filter (fun e => e.1 == a && e.2.1 == b)).length

theorem lookupNode_append_of_some {ns : NodeTable} {id : String} {m : AttrMap}
    (h : lookupNode ns id = some m) (tail : NodeTable) :
    lookupNode (ns ++ tail) id = some m := by
  induction ns with
  | nil => simp [lookupNode] at h
  | cons p rest ih =>
    obtain ⟨id₀, m₀⟩ := p
    by_cases h₀ : id₀ = id
    · simp only [lookupNode, h₀, if_true, Option.some.injEq] at h
      simp [lookupNode, h₀, h]
    · simp only [lookupNode, h₀, if_false] at h
      simp [lookupNode, h₀, ih h]

theorem isSome_lookupNode_setNode {ns : NodeTable} {id₀ : String} {m₀ : AttrMap}
    (h₀ : lookupNode ns id₀ = some m₀) (m : AttrMap) (id : String) :
    (lookupNode (setNode ns id₀ m) id).isSome = (lookupNode ns id).isSome := by
  by_cases h : id₀ = id
  · subst h
    rw [lookupNode_setNode_self, h₀]
    rfl
  · rw [lookupNode_setNode_ne ns h]

/-- When both endpoints are already nodes, `add_edge` only appends the
labeled edge. -/
theorem add_edge_of_hasNode {g : ChallengeGraph} {id1 id2 : String}
    (h1 : hasNode g id1 = true) (h2 : hasNode g id2 = true) (rel : String) :
    add_edge g id1 id2 rel = { g with edges := g.edges ++ [(id1, id2, rel)] } := by
  unfold hasNode at h1 h2
  obtain ⟨m1, hm1⟩ := Option.isSome_iff_exists.mp h1
  obtain ⟨m2, hm2⟩ := Option.isSome_iff_exists.mp h2
  simp [add_edge, hm1, hm2]

/-- Inversion for relationship-line parsing: the line either has exactly
five tokens and parses to them, or parsing raises
`InvalidRelationshipLine` naming the line. -/
theorem parse_relationship_line_cases (l : String) :
    (∃ rel id1 type1 id2 type2, tokens l = [rel, id1, type1, id2, type2] ∧
      parse_relationship_line l = .ok (rel, id1, type1, id2, type2)) ∨
    ((tokens l).length ≠ 5 ∧
      parse_relationship_line l =
        .error (.invalidRelationshipLine ("Error processing relationship: " ++ l))) := by
  unfold parse_relationship_line
  split
  · next rel id1 type1 id2 type2 heq =>
    exact Or.inl ⟨rel, id1, type1, id2, type2, heq, rfl⟩
  · next hne =>
    refine Or.inr ⟨?_, rfl⟩
    intro hlen
    rcases htk : tokens l with _ | ⟨a, _ | ⟨b, _ | ⟨c, _ | ⟨d, _ | ⟨e, rest⟩⟩⟩⟩⟩ <;>
      rw [htk] at hlen <;> simp at hlen
    cases rest with
    | nil => exact hne a b c d e htk
    | cons f rest' => simp at hlen

theorem parse_relationship_line_ok_tokens {l : String}
    {rel id1 type1 id2 type2 : String}
    (h : parse_relationship_line l = .ok (rel, id1, type1, id2, type2)) :
    tokens l = [rel, id1, type1, id2, type2] := by
  rcases parse_relationship_line_cases l with ⟨r, a, b, c, d, htk, hok⟩ | ⟨_, herr⟩
  · rw [hok] at h
    cases h
    exact htk
  · rw [herr] at h
    cases h

theorem tokens_empty : tokens "" = [] := rfl

theorem setTypeDefault_edges (g : ChallengeGraph) (id ty : String) (m : AttrMap) :
    (setTypeDefault g id ty m).edges = g.edges := rfl

theorem hasNode_setTypeDefault {g : ChallengeGraph} {id₀ : String} {m₀ : AttrMap}
    (h : lookupNode g.nodes id₀ = some m₀) (ty : String) (id : String) :
    hasNode (setTypeDefault g id₀ ty m₀) id = hasNode g id :=
  isSome_lookupNode_setNode h _ id

theorem processRelLine_blank {line : String} (hb : strip line = "") (g : ChallengeGraph) :
    processRelLine g line = (g, none) := by
  simp [processRelLine, hb]

theorem processRelLine_parse_err {line : String} {e : IngestError}
    (hb : ¬strip line = "") (hp : parse_relationship_line (strip line) = .error e)
    (g : ChallengeGraph) : processRelLine g line = (g, some e) := by
  simp [processRelLine, hb, hp]

theorem processRelLine_key1 {line rel id1 type1 id2 type2 : String}
    (hb : ¬strip line = "")
    (hp : parse_relationship_line (strip line) = .ok (rel, id1, type1, id2, type2))
    {g : ChallengeGraph} (hl1 : lookupNode g.nodes id1 = none) :
    processRelLine g line = (g, some (.keyError id1)) := by
  simp [processRelLine, hb, hp, hl1]

theorem processRelLine_key2 {line rel id1 type1 id2 type2 : String}
    (hb : ¬strip line = "")
    (hp : parse_relationship_line (strip line) = .ok (rel, id1, type1, id2, type2))
    {g : ChallengeGraph} {m1 : AttrMap} (hl1 : lookupNode g.nodes id1 = some m1)
    (hl2 : lookupNode (setTypeDefault g id1 type1 m1).nodes id2 = none) :
    processRelLine g line = (setTypeDefault g id1 type1 m1, some (.keyError id2)) := by
  simp [processRelLine, hb, hp, hl1, hl2]

theorem processRelLine_success {line rel id1 type1 id2 type2 : String}
    (hb : ¬strip line = "")
    (hp : parse_relationship_line (strip line) = .ok (rel, id1, type1, id2, type2))
    {g : ChallengeGraph} {m1 m2 : AttrMap} (hl1 : lookupNode g.nodes id1 = some m1)
    (hl2 : lookupNode (setTypeDefault g id1 type1 m1).nodes id2 = some m2) :
    processRelLine g line =
      (add_edge (setTypeDefault (setTypeDefault g id1 type1 m1) id2 type2 m2) id1 id2 rel,
        none) := by
  simp [processRelLine, hb, hp, hl1, hl2]

/-- Exhaustive description of the outcomes of one relationship-line step. -/
theorem processRelLine_classify (g : ChallengeGraph) (line : String) :
    (strip line = "" ∧ processRelLine g line = (g, none)) ∨
    (strip line ≠ "" ∧ ∃ e, parse_relationship_line (strip line) = .error e ∧
      processRelLine g line = (g, some e)) ∨
    (strip line ≠ "" ∧ ∃ rel id1 type1 id2 type2,
      parse_relationship_line (strip line) = .ok (rel, id1, type1, id2, type2) ∧
      ((lookupNode g.nodes id1 = none ∧ processRelLine g line = (g, some (.keyError id1))) ∨
        ∃ m1, lookupNode g.nodes id1 = some m1 ∧
          ((lookupNode (setTypeDefault g id1 type1 m1).nodes id2 = none ∧
              processRelLine g line = (setTypeDefault g id1 type1 m1, some (.keyError id2))) ∨
            ∃ m2, lookupNode (setTypeDefault g id1 type1 m1).nodes id2 = some m2 ∧
              processRelLine g line =
                (add_edge (setTypeDefault (setTypeDefault g id1 type1 m1) id2 type2 m2)
                  id1 id2 rel, none)))) := by
  by_cases hb : strip line = ""
  · exact Or.inl ⟨hb, processRelLine_blank hb g⟩
  · refine Or.inr ?_
    cases hp : parse_relationship_line (strip line) with
    | error e => exact Or.inl ⟨hb, e, rfl, processRelLine_parse_err hb hp g⟩
    | ok q =>
      obtain ⟨rel, id1, type1, id2, type2⟩ := q
      refine Or.inr ⟨hb, rel, id1, type1, id2, type2, rfl, ?_⟩
      cases hl1 : lookupNode g.nodes id1 with
      | none => exact Or.inl ⟨rfl, processRelLine_key1 hb hp hl1⟩
      | some m1 =>
        refine Or.inr ⟨m1, rfl, ?_⟩
        cases hl2 : lookupNode (setTypeDefault g id1 type1 m1).nodes id2 with
        | none => exact Or.inl ⟨rfl, processRelLine_key2 hb hp hl1 hl2⟩
        | some m2 => exact Or.inr ⟨m2, rfl, processRelLine_success hb hp hl1 hl2⟩

/-- Inversion of a successful relationship-line step. -/
theorem processRelLine_ok_cases {g g₁ : ChallengeGraph} {line : String}
    (h : processRelLine g line = (g₁, none)) :
    (strip line = "" ∧ g₁ = g) ∨
    ∃ rel id1 type1 id2 type2 m1 m2, strip line ≠ "" ∧
      parse_relationship_line (strip line) = .ok (rel, id1, type1, id2, type2) ∧
      lookupNode g.nodes id1 = some m1 ∧
      lookupNode (setTypeDefault g id1 type1 m1).nodes id2 = some m2 ∧
      g₁ = add_edge (setTypeDefault (setTypeDefault g id1 type1 m1) id2 type2 m2) id1 id2 rel := by
  rcases processRelLine_classify g line with ⟨hb, he⟩ | ⟨hb, e, _, he⟩ |
    ⟨hb, rel, id1, type1, id2, type2, hp, hrest⟩
  · rw [he] at h
    exact Or.inl ⟨hb, (Prod.mk.injEq _ _ _ _ ▸ h).1.symm⟩
  · rw [he] at h
    simp at h
  · rcases hrest with ⟨_, he⟩ | ⟨m1, hl1, hrest⟩
    · rw [he] at h
      simp at h
    · rcases hrest with ⟨_, he⟩ | ⟨m2, hl2, he⟩
      · rw [he] at h
        simp at h
      · rw [he] at h
        simp only [Prod.mk.injEq, and_true] at h
        exact Or.inr ⟨rel, id1, type1, id2, type2, m1, m2, hb, hp, hl1, hl2, h.symm⟩

theorem hasNode_add_edge_of_hasNode {g : ChallengeGraph} {id1 id2 : String}
    (h1 : hasNode g id1 = true) (h2 : hasNode g id2 = true) (rel id : String) :
    hasNode (add_edge g id1 id2 rel) id = hasNode g id := by
  rw [add_edge_of_hasNode h1 h2]
  rfl

theorem success_hasNodes {g : ChallengeGraph} {id1 type1 id2 : String} {m1 m2 : AttrMap}
    (hl1 : lookupNode g.nodes id1 = some m1)
    (hl2 : lookupNode (setTypeDefault g id1 type1 m1).nodes id2 = some m2) (type2 : String) :
    hasNode (setTypeDefault (setTypeDefault g id1 type1 m1) id2 type2 m2) id1 = true ∧
    hasNode (setTypeDefault (setTypeDefault g id1 type1 m1) id2 type2 m2) id2 = true := by
  constructor
  · rw [hasNode_setTypeDefault hl2, hasNode_setTypeDefault hl1]
    simp [hasNode, hl1]
  · rw [hasNode_setTypeDefault hl2]
    simp [hasNode, hl2]

/-- A successful relationship-line step neither creates nor removes nodes:
`setdefault` rewrites existing entries and `add_edge` sees both endpoints
already present. -/
theorem processRelLine_ok_hasNode {g g₁ : ChallengeGraph} {line : String}
    (h : processRelLine g line = (g₁, none)) (id : String) :
    hasNode g₁ id = hasNode g id := by
  rcases processRelLine_ok_cases h with ⟨_, rfl⟩ |
    ⟨rel, id1, type1, id2, type2, m1, m2, hb, hp, hl1, hl2, rfl⟩
  · rfl
  · obtain ⟨h1, h2⟩ := success_hasNodes hl1 hl2 type2
    rw [hasNode_add_edge_of_hasNode h1 h2, hasNode_setTypeDefault hl2,
      hasNode_setTypeDefault hl1]

/-- A successful relationship-line step appends exactly the directed edge
the line describes. -/
theorem processRelLine_ok_edges {g g₁ : ChallengeGraph} {line : String}
    (h : processRelLine g line = (g₁, none)) :
    g₁.edges = g.edges ++ lineEdge line := by
  rcases processRelLine_ok_cases h with ⟨hb, rfl⟩ |
    ⟨rel, id1, type1, id2, type2, m1, m2, hb, hp, hl1, hl2, rfl⟩
  · have hline : lineEdge line = [] := by simp [lineEdge, hb, tokens_empty]
    simp [hline]
  · obtain ⟨h1, h2⟩ := success_hasNodes hl1 hl2 type2
    rw [add_edge_of_hasNode h1 h2]
    have htok := parse_relationship_line_ok_tokens hp
    simp [lineEdge, htok, setTypeDefault_edges]

/-- A line that one store processes successfully is also processed
successfully by any store with the same set of present node IDs. -/
theorem processRelLine_parallel {g g₁ hg : ChallengeGraph} {line : String}
    (h : processRelLine g line = (g₁, none))
    (hpres : ∀ id, hasNode g id = hasNode hg id) :
    ∃ h₁, processRelLine hg line = (h₁, none) := by
  rcases processRelLine_ok_cases h with ⟨hb, _⟩ |
    ⟨rel, id1, type1, id2, type2, m1, m2, hb, hp, hl1, hl2, _⟩
  · exact ⟨hg, processRelLine_blank hb hg⟩
  · have hn1 : hasNode hg id1 = true := by
      rw [← hpres]
      simp [hasNode, hl1]
    obtain ⟨n1, hn1'⟩ := Option.isSome_iff_exists.mp hn1
    have hgid2 : hasNode g id2 = true := by
      rw [← hasNode_setTypeDefault hl1 type1 id2]
      simp [hasNode, hl2]
    have hn2 : hasNode (setTypeDefault hg id1 type1 n1) id2 = true := by
      rw [hasNode_setTypeDefault hn1', ← hpres]
      exact hgid2
    obtain ⟨n2, hn2'⟩ := Option.isSome_iff_exists.mp hn2
    exact ⟨_, processRelLine_success hb hp hn1' hn2'⟩

theorem addRelLines_ok_hasNode :
    ∀ (ls : List String) (g g₁ : ChallengeGraph), addRelLines g ls = (g₁, none) →
      ∀ id, hasNode g₁ id = hasNode g id := by
  intro ls
  induction ls with
  | nil =>
    intro g g₁ h id
    injection h with h1 _
    rw [h1]
  | cons line rest ih =>
    intro g g₁ h id
    cases hstep : processRelLine g line with
    | mk g' err =>
      cases err with
      | none =>
        have h' : addRelLines g' rest = (g₁, none) := by
          simpa [addRelLines, hstep] using h
        rw [ih g' g₁ h' id, processRelLine_ok_hasNode hstep id]
      | some e =>
        simp [addRelLines, hstep] at h

theorem addRelLines_ok_edges :
    ∀ (ls : List String) (g g₁ : ChallengeGraph), addRelLines g ls = (g₁, none) →
      g₁.edges = g.edges ++ linesEdges ls := by
  intro ls
  induction ls with
  | nil =>
    intro g g₁ h
    injection h with h1 _
    rw [h1]
    simp [linesEdges]
  | cons line rest ih =>
    intro g g₁ h
    cases hstep : processRelLine g line with
    | mk g' err =>
      cases err with
      | none =>
        have h' : addRelLines g' rest = (g₁, none) := by
          simpa [addRelLines, hstep] using h
        rw [ih g' g₁ h', processRelLine_ok_edges hstep]
        simp [linesEdges, List.append_assoc]
      | some e =>
        simp [addRelLines, hstep] at h

theorem addRelLines_parallel :
    ∀ (ls : List String) (g g₁ hg : ChallengeGraph), addRelLines g ls = (g₁, none) →
      (∀ id, hasNode g id = hasNode hg id) → ∃ h₁, addRelLines hg ls = (h₁, none) := by
  intro ls
  induction ls with
  | nil =>
    intro g g₁ hg _ _
    exact ⟨hg, rfl⟩
  | cons line rest ih =>
    intro g g₁ hg h hpres
    cases hstep : processRelLine g line with
    | mk g' err =>
      cases err with
      | none =>
        have h' : addRelLines g' rest = (g₁, none) := by
          simpa [addRelLines, hstep] using h
        obtain ⟨h₂, hstep'⟩ := processRelLine_parallel hstep hpres
        have hpres' : ∀ id, hasNode g' id = hasNode h₂ id := by
          intro id
          rw [processRelLine_ok_hasNode hstep id, hpres id,
            ← processRelLine_ok_hasNode hstep' id]
        obtain ⟨h₁, hrest⟩ := ih g' g₁ h₂ h' hpres'
        exact ⟨h₁, by simp [addRelLines, hstep', hrest]⟩
      | some e =>
        simp [addRelLines, hstep] at h

/-! ### Preservation of an already-set Type -/

theorem setdefaultAttr_of_some {d : AttrMap} {k t : String} (h : getAttr d k = some t)
    (v : String) : setdefaultAttr d k v = d := by
  simp [setdefaultAttr, h]

theorem nodeType_setTypeDefault {g : ChallengeGraph} {id₀ : String} {m₀ : AttrMap}
    (hl : lookupNode g.nodes id₀ = some m₀) (ty : String) {id t : String}
    (h : nodeType g id = some t) : nodeType (setTypeDefault g id₀ ty m₀) id = some t := by
  unfold nodeType at h ⊢
  by_cases hid : id₀ = id
  · subst hid
    rw [hl] at h
    simp only [Option.some_bind] at h
    show (lookupNode (setNode g.nodes id₀ (setdefaultAttr m₀ "Type" ty)) id₀).bind
      (fun m => getAttr m "Type") = some t
    rw [setdefaultAttr_of_some h, lookupNode_setNode_self]
    simpa using h
  · show (lookupNode (setNode g.nodes id₀ (setdefaultAttr m₀ "Type" ty)) id).bind
      (fun m => getAttr m "Type") = some t
    rw [lookupNode_setNode_ne _ hid]
    exact h

theorem lookupNode_add_edge_nodes {g : ChallengeGraph} {id : String} {m : AttrMap}
    (hl : lookupNode g.nodes id = some m) (id1 id2 rel : String) :
    lookupNode (add_edge g id1 id2 rel).nodes id = some m := by
  simp only [add_edge]
  cases h1 : lookupNode g.nodes id1 with
  | some m1 =>
    simp only [h1]
    cases h2 : lookupNode g.nodes id2 with
    | some m2 => simpa [h2] using hl
    | none => simpa [h2] using lookupNode_append_of_some hl _
  | none =>
    simp only [h1]
    cases h2 : lookupNode (g.nodes ++ [(id1, ([] : AttrMap))]) id2 with
    | some m2 => simpa [h2] using lookupNode_append_of_some hl _
    | none =>
      simp only [h2]
      exact lookupNode_append_of_some (lookupNode_append_of_some hl _) _

theorem nodeType_add_edge {g : ChallengeGraph} {id t : String} (h : nodeType g id = some t)
    (id1 id2 rel : String) : nodeType (add_edge g id1 id2 rel) id = some t := by
  unfold nodeType at h ⊢
  cases hl : lookupNode g.nodes id with
  | none => rw [hl] at h; simp at h
  | some m =>
    rw [hl] at h
    rw [lookupNode_add_edge_nodes hl]
    exact h

theorem nodeType_processRelLine {g : ChallengeGraph} {line id t : String}
    (h : nodeType g id = some t) : nodeType (processRelLine g line).1 id = some t := by
  rcases processRelLine_classify g line with ⟨_, he⟩ | ⟨_, e, _, he⟩ |
    ⟨_, rel, id1, type1, id2, type2, hp, hrest⟩
  · rw [he]; exact h
  · rw [he]; exact h
  · rcases hrest with ⟨_, he⟩ | ⟨m1, hl1, hrest⟩
    · rw [he]; exact h
    · have h1 := nodeType_setTypeDefault hl1 type1 h
      rcases hrest with ⟨_, he⟩ | ⟨m2, hl2, he⟩
      · rw [he]; exact h1
      · rw [he]
        exact nodeType_add_edge (nodeType_setTypeDefault hl2 type2 h1) id1 id2 rel

theorem nodeType_addRelLines :
    ∀ (ls : List String) (g : ChallengeGraph) (id t : String),
      nodeType g id = some t → nodeType (addRelLines g ls).1 id = some t := by
  intro ls
  induction ls with
  | nil => intro g id t h; exact h
  | cons line rest ih =>
    intro g id t h
    cases hstep : processRelLine g line with
    | mk g' err =>
      have hg' : nodeType g' id = some t := by
        have := @nodeType_processRelLine g line id t h
        rwa [hstep] at this
      cases err with
      | none =>
        simpa [addRelLines, hstep] using ih g' id t hg'
      | some e =>
        simpa [addRelLines, hstep] using hg'

/-- Claim C4 (first-write-wins for Type under relationship ingestion).
Once a node carries a `Type` attribute, running any relationship ingestion
call over any source leaves that attribute value untouched: the loop only
writes `Type` through `setdefault`, which is a no-op on a present key, and
`add_edge` never alters existing attribute dicts. -/
theorem type_first_write_wins (g : ChallengeGraph) (src : Option (List String))
    (id t : String) (h : nodeType g id = some t) :
    nodeType (add_relationships_from_file g src).1 id = some t := by
  match src with
  | none => exact h
  | some [] => exact h
  | some (header :: ds) => exact nodeType_addRelLines ds g id t h

/-- Witness for C4: a node whose `Type` is `Person` keeps it when a later
relationship line declares the same ID with type `Robot`. -/
theorem type_first_write_wins_witness :
    nodeType (⟨[("A", [("Type", "Person")]), ("B", [])], []⟩ : ChallengeGraph) "A" =
      some "Person" ∧
    nodeType (add_relationships_from_file
      (⟨[("A", [("Type", "Person")]), ("B", [])], []⟩ : ChallengeGraph)
      (some ["Relationship ID1 Type1 ID2 Type2", "KNOWS A Robot B Robot"])).1 "A" =
      some "Person" :=
  ⟨by decide,
    type_first_write_wins _ (some ["Relationship ID1 Type1 ID2 Type2", "KNOWS A Robot B Robot"])
      "A" "Person" (by decide)⟩

/-- Claim C5 (relationship ingestion is not idempotent).  When an ingestion
call over a resolvable relationship source succeeds, running the very same
source again also succeeds and appends every described edge a second time:
for every ordered node pair, the first pass adds the number of source lines
naming that pair, and the second pass the same number again — duplicate
edges are appended, never deduplicated. -/
theorem rel_ingestion_not_idempotent (g : ChallengeGraph) (header : String)
    (ds : List String) (g₁ : ChallengeGraph) (a b : String)
    (h : add_relationships_from_file g (some (header :: ds)) = (g₁, none)) :
    (add_relationships_from_file g₁ (some (header :: ds))).2 = none ∧
    edgeCount g₁ a b = edgeCount g a b + srcEdgeCount ds a b ∧
    edgeCount (add_relationships_from_file g₁ (some (header :: ds))).1 a b =
      edgeCount g a b + 2 * srcEdgeCount ds a b := by
  have h' : addRelLines g ds = (g₁, none) := h
  obtain ⟨g₂, h₂⟩ :=
    addRelLines_parallel ds g g₁ g₁ h'
      (fun id => (addRelLines_ok_hasNode ds g g₁ h' id).symm)
  have e₁ : g₁.edges = g.edges ++ linesEdges ds := addRelLines_ok_edges ds g g₁ h'
  have e₂ : g₂.edges = g₁.edges ++ linesEdges ds := addRelLines_ok_edges ds g₁ g₂ h₂
  have hh : add_relationships_from_file g₁ (some (header :: ds)) = (g₂, none) := h₂
  rw [hh]
  refine ⟨rfl, ?_, ?_⟩
  · unfold edgeCount srcEdgeCount
    rw [e₁, List.filter_append, List.length_append]
  · unfold edgeCount srcEdgeCount
    rw [e₂, e₁, List.filter_append, List.filter_append, List.length_append,
      List.length_append]
    omega

/-- Witness for C5: re-ingesting one `FRIENDS_WITH` line doubles the edge
count between the named ordered pair. -/
theorem rel_ingestion_not_idempotent_witness :
    (add_relationships_from_file
      (⟨[("A", [("Type", "Person")]), ("B", [("Type", "Person")])],
        [("A", "B", "FRIENDS_WITH")]⟩ : ChallengeGraph)
      (some ["Relationship ID1 Type1 ID2 Type2", "FRIENDS_WITH A Person B Person"])).2 =
        none ∧
    edgeCount (⟨[("A", [("Type", "Person")]), ("B", [("Type", "Person")])],
        [("A", "B", "FRIENDS_WITH")]⟩ : ChallengeGraph) "A" "B" =
      edgeCount (⟨[("A", []), ("B", [])], []⟩ : ChallengeGraph) "A" "B" +
        srcEdgeCount ["FRIENDS_WITH A Person B Person"] "A" "B" ∧
    edgeCount (add_relationships_from_file
      (⟨[("A", [("Type", "Person")]), ("B", [("Type", "Person")])],
        [("A", "B", "FRIENDS_WITH")]⟩ : ChallengeGraph)
      (some ["Relationship ID1 Type1 ID2 Type2", "FRIENDS_WITH A Person B Person"])).1
        "A" "B" =
      edgeCount (⟨[("A", []), ("B", [])], []⟩ : ChallengeGraph) "A" "B" +
        2 * srcEdgeCount ["FRIENDS_WITH A Person B Person"] "A" "B" :=
  rel_ingestion_not_idempotent
    (⟨[("A", []), ("B", [])], []⟩ : ChallengeGraph)
    "Relationship ID1 Type1 ID2 Type2" ["FRIENDS_WITH A Person B Person"]
    (⟨[("A", [("Type", "Person")]), ("B", [("Type", "Person")])],
      [("A", "B", "FRIENDS_WITH")]⟩ : ChallengeGraph)
    "A" "B" (by decide)

/-! ### Endpoints are not created on demand -/

/-- Counterexample to claim C2: on an empty store, a perfectly valid
relationship line fails with a key error on its first endpoint —
`self.nodes[id1]` does not create absent nodes — and no node or edge is
added. -/
theorem rel_missing_endpoint_cex :
    add_relationships_from_file ChallengeGraph.empty
      (some ["Relationship ID1 Type1 ID2 Type2", "FRIENDS_WITH A Person B Person"]) =
      (ChallengeGraph.empty, some (.keyError "A")) := by decide

/-- Amended claim C2: relationship ingestion never creates an endpoint
node on demand.  On a valid line, if the first endpoint is absent the step
fails with a key error for it and the store is untouched; if the first
endpoint exists but the second is absent, the step sets the first
endpoint's default `Type` and then fails with a key error for the second,
adding no edge and no node; only when both endpoints already exist does
the step succeed, appending the directed labeled edge and creating no
node. -/
theorem rel_ingestion_requires_existing_endpoints
    (g : ChallengeGraph) (line rel id1 type1 id2 type2 : String)
    (htok : tokens (strip line) = [rel, id1, type1, id2, type2]) :
    (hasNode g id1 = false → processRelLine g line = (g, some (.keyError id1))) ∧
    (hasNode g id1 = true → hasNode g id2 = false →
      ∃ m1, lookupNode g.nodes id1 = some m1 ∧
        processRelLine g line = (setTypeDefault g id1 type1 m1, some (.keyError id2)) ∧
        (setTypeDefault g id1 type1 m1).edges = g.edges ∧
        ∀ id, hasNode (setTypeDefault g id1 type1 m1) id = hasNode g id) ∧
    (hasNode g id1 = true → hasNode g id2 = true →
      (processRelLine g line).2 = none ∧
      (processRelLine g line).1.edges = g.edges ++ [(id1, id2, rel)] ∧
      ∀ id, hasNode (processRelLine g line).1 id = hasNode g id) := by
  have hb : ¬strip line = "" := by
    intro hb
    rw [hb, tokens_empty] at htok
    simp at htok
  have hp : parse_relationship_line (strip line) = .ok (rel, id1, type1, id2, type2) := by
    unfold parse_relationship_line
    rw [htok]
  refine ⟨?_, ?_, ?_⟩
  · intro h1
    cases hl : lookupNode g.nodes id1 with
    | none => exact processRelLine_key1 hb hp hl
    | some m =>
      unfold hasNode at h1
      rw [hl] at h1
      simp at h1
  · intro h1 h2
    obtain ⟨m1, hl1⟩ := Option.isSome_iff_exists.mp h1
    have h2' : hasNode (setTypeDefault g id1 type1 m1) id2 = false := by
      rw [hasNode_setTypeDefault hl1]
      exact h2
    cases hl2 : lookupNode (setTypeDefault g id1 type1 m1).nodes id2 with
    | some m =>
      unfold hasNode at h2'
      rw [hl2] at h2'
      simp at h2'
    | none =>
      exact ⟨m1, hl1, processRelLine_key2 hb hp hl1 hl2,
        setTypeDefault_edges g id1 type1 m1,
        fun id => hasNode_setTypeDefault hl1 type1 id⟩
  · intro h1 h2
    obtain ⟨m1, hl1⟩ := Option.isSome_iff_exists.mp h1
    have h2' : hasNode (setTypeDefault g id1 type1 m1) id2 = true := by
      rw [hasNode_setTypeDefault hl1]
      exact h2
    obtain ⟨m2, hl2⟩ := Option.isSome_iff_exists.mp h2'
    rw [processRelLine_success hb hp hl1 hl2]
    obtain ⟨hn1, hn2⟩ := success_hasNodes hl1 hl2 type2
    refine ⟨rfl, ?_, ?_⟩
    · show (add_edge (setTypeDefault (setTypeDefault g id1 type1 m1) id2 type2 m2)
        id1 id2 rel).edges = g.edges ++ [(id1, id2, rel)]
      rw [add_edge_of_hasNode hn1 hn2]
      simp [setTypeDefault_edges]
    · intro id
      show hasNode (add_edge (setTypeDefault (setTypeDefault g id1 type1 m1) id2 type2 m2)
        id1 id2 rel) id = hasNode g id
      rw [hasNode_add_edge_of_hasNode hn1 hn2, hasNode_setTypeDefault hl2,
        hasNode_setTypeDefault hl1]

/-- Witness for the amended C2: the same valid line fails with a key error
for A when A is absent, fails with a key error for B after A's `Type`
setdefault when only A exists (appending no edge, creating no node), and
succeeds by appending the edge when both A and B exist. -/
theorem rel_ingestion_requires_existing_endpoints_witness :
    processRelLine (⟨[("B", [])], []⟩ : ChallengeGraph)
      "FRIENDS_WITH A Person B Person" =
      ((⟨[("B", [])], []⟩ : ChallengeGraph), some (.keyError "A")) ∧
    (∃ m1, lookupNode (⟨[("A", [])], []⟩ : ChallengeGraph).nodes "A" = some m1 ∧
      processRelLine (⟨[("A", [])], []⟩ : ChallengeGraph)
        "FRIENDS_WITH A Person B Person" =
        (setTypeDefault (⟨[("A", [])], []⟩ : ChallengeGraph) "A" "Person" m1,
          some (.keyError "B")) ∧
      (setTypeDefault (⟨[("A", [])], []⟩ : ChallengeGraph) "A" "Person" m1).edges =
        (⟨[("A", [])], []⟩ : ChallengeGraph).edges ∧
      ∀ id, hasNode (setTypeDefault (⟨[("A", [])], []⟩ : ChallengeGraph) "A" "Person" m1) id =
        hasNode (⟨[("A", [])], []⟩ : ChallengeGraph) id) ∧
    (processRelLine (⟨[("A", []), ("B", [])], []⟩ : ChallengeGraph)
      "FRIENDS_WITH A Person B Person").2 = none ∧
    (processRelLine (⟨[("A", []), ("B", [])], []⟩ : ChallengeGraph)
      "FRIENDS_WITH A Person B Person").1.edges =
      (⟨[("A", []), ("B", [])], []⟩ : ChallengeGraph).edges ++
        [("A", "B", "FRIENDS_WITH")] :=
  ⟨(rel_ingestion_requires_existing_endpoints
      (⟨[("B", [])], []⟩ : ChallengeGraph)
      "FRIENDS_WITH A Person B Person" "FRIENDS_WITH" "A" "Person" "B" "Person"
      (by decide)).1 (by decide),
    (rel_ingestion_requires_existing_endpoints
      (⟨[("A", [])], []⟩ : ChallengeGraph)
      "FRIENDS_WITH A Person B Person" "FRIENDS_WITH" "A" "Person" "B" "Person"
      (by decide)).2.1 (by decide) (by decide),
    ((rel_ingestion_requires_existing_endpoints
      (⟨[("A", []), ("B", [])], []⟩ : ChallengeGraph)
      "FRIENDS_WITH A Person B Person" "FRIENDS_WITH" "A" "Person" "B" "Person"
      (by decide)).2.2 (by decide) (by decide)).1,
    ((rel_ingestion_requires_existing_endpoints
      (⟨[("A", []), ("B", [])], []⟩ : ChallengeGraph)
      "FRIENDS_WITH A Person B Person" "FRIENDS_WITH" "A" "Person" "B" "Person"
      (by decide)).2.2 (by decide) (by decide)).2.1⟩

/-! ### Malformed relationship lines -/

theorem parse_relationship_line_of_bad_length {l : String}
    (hlen : (tokens l).length ≠ 5) :
    parse_relationship_line l =
      .error (.invalidRelationshipLine ("Error processing relationship: " ++ l)) := by
  rcases parse_relationship_line_cases l with ⟨rel, id1, type1, id2, type2, htk, _⟩ | ⟨_, herr⟩
  · rw [htk] at hlen
    simp at hlen
  · exact herr

theorem addRelLines_append_ok :
    ∀ (ls₁ : List String) (g g₁ : ChallengeGraph), addRelLines g ls₁ = (g₁, none) →
      ∀ ls₂, addRelLines g (ls₁ ++ ls₂) = addRelLines g₁ ls₂ := by
  intro ls₁
  induction ls₁ with
  | nil =>
    intro g g₁ h ls₂
    injection h with h1 _
    rw [h1]
    rfl
  | cons line rest ih =>
    intro g g₁ h ls₂
    cases hstep : processRelLine g line with
    | mk g' err =>
      cases err with
      | none =>
        have h' : addRelLines g' rest = (g₁, none) := by
          simpa [addRelLines, hstep] using h
        simpa [addRelLines, hstep] using ih g' g₁ h' ls₂
      | some e =>
        simp [addRelLines, hstep] at h

/-- Every `InvalidRelationshipLine` outcome of the line loop comes from a
non-blank data line that does not split into exactly five tokens, and the
message names that (stripped) line. -/
theorem addRelLines_irl :
    ∀ (ls : List String) (g g' : ChallengeGraph) (msg : String),
      addRelLines g ls = (g', some (.invalidRelationshipLine msg)) →
      ∃ line ∈ ls, strip line ≠ "" ∧ (tokens (strip line)).length ≠ 5 ∧
        msg = "Error processing relationship: " ++ strip line := by
  intro ls
  induction ls with
  | nil =>
    intro g g' msg h
    simp [addRelLines] at h
  | cons line rest ih =>
    intro g g' msg h
    rcases processRelLine_classify g line with ⟨hb, he⟩ | ⟨hb, e, hpe, he⟩ |
      ⟨hb, rel, id1, type1, id2, type2, hp, hrest⟩
    · rw [show addRelLines g (line :: rest) = addRelLines g rest by simp [addRelLines, he]] at h
      obtain ⟨l, hl, hrest'⟩ := ih g g' msg h
      exact ⟨l, List.mem_cons_of_mem _ hl, hrest'⟩
    · rcases parse_relationship_line_cases (strip line) with
        ⟨r, a, b, c, d, _, hok⟩ | ⟨hlen, herr⟩
      · rw [hok] at hpe
        cases hpe
      · rw [herr] at hpe
        injection hpe with hpe'
        subst hpe'
        rw [show addRelLines g (line :: rest) =
          (g, some (.invalidRelationshipLine
            ("Error processing relationship: " ++ strip line))) by
              simp [addRelLines, he]] at h
        simp only [Prod.mk.injEq, Option.some.injEq,
          IngestError.invalidRelationshipLine.injEq] at h
        exact ⟨line, List.mem_cons_self _ _, hb, hlen, h.2.symm⟩
    · rcases hrest with ⟨_, he⟩ | ⟨m1, hl1, hrest⟩
      · rw [show addRelLines g (line :: rest) = (g, some (.keyError id1)) by
          simp [addRelLines, he]] at h
        simp at h
      · rcases hrest with ⟨_, he⟩ | ⟨m2, hl2, he⟩
        · rw [show addRelLines g (line :: rest) =
            (setTypeDefault g id1 type1 m1, some (.keyError id2)) by
              simp [addRelLines, he]] at h
          simp at h
        · rw [show addRelLines g (line :: rest) =
            addRelLines (add_edge (setTypeDefault (setTypeDefault g id1 type1 m1)
              id2 type2 m2) id1 id2 rel) rest by simp [addRelLines, he]] at h
          obtain ⟨l, hl, hrest'⟩ := ih _ g' msg h
          exact ⟨l, List.mem_cons_of_mem _ hl, hrest'⟩

/-- Counterexample to claim C6: a source whose second data line has two
tokens, preceded by a valid line naming absent endpoints, makes ingestion
fail with a key error, not with `InvalidRelationshipLine` — so the claimed
equivalence does not hold as stated. -/
theorem invalid_line_iff_cex :
    strip "bad line" ≠ "" ∧ (tokens (strip "bad line")).length ≠ 5 ∧
    add_relationships_from_file ChallengeGraph.empty
      (some ["Relationship ID1 Type1 ID2 Type2",
        "FRIENDS_WITH A Person B Person", "bad line"]) =
      (ChallengeGraph.empty, some (.keyError "A")) := by decide

/-- Amended claim C6: `InvalidRelationshipLine` (naming the stripped
offending line) is raised exactly when the loop reaches a non-blank data
line that does not split into five tokens before any other failure: if
every earlier data line processes successfully, the error is raised
immediately on the bad line, no edge is added for it, later lines are not
read, and the state reached from the earlier lines stays committed;
conversely any `InvalidRelationshipLine` outcome names a non-blank data
line of the source with a token count other than five. -/
theorem invalid_relationship_line_behavior :
    (∀ (g g₁ : ChallengeGraph) (header bad : String) (pre rest : List String),
      addRelLines g pre = (g₁, none) → strip bad ≠ "" →
      (tokens (strip bad)).length ≠ 5 →
      add_relationships_from_file g (some (header :: (pre ++ bad :: rest))) =
        (g₁, some (.invalidRelationshipLine
          ("Error processing relationship: " ++ strip bad)))) ∧
    (∀ (g g' : ChallengeGraph) (src : Option (List String)) (msg : String),
      add_relationships_from_file g src = (g', some (.invalidRelationshipLine msg)) →
      ∃ lines, src = some lines ∧ ∃ line ∈ lines.tail, strip line ≠ "" ∧
        (tokens (strip line)).length ≠ 5 ∧
        msg = "Error processing relationship: " ++ strip line) := by
  constructor
  · intro g g₁ header bad pre rest hpre hb hlen
    show addRelLines g (pre ++ bad :: rest) = _
    rw [addRelLines_append_ok pre g g₁ hpre (bad :: rest)]
    have herr := parse_relationship_line_of_bad_length hlen
    have hstep := processRelLine_parse_err hb herr g₁
    simp [addRelLines, hstep]
  · intro g g' src msg h
    match src with
    | none => simp [add_relationships_from_file] at h
    | some [] => simp [add_relationships_from_file] at h
    | some (header :: ds) =>
      have h' : addRelLines g ds = (g', some (.invalidRelationshipLine msg)) := h
      obtain ⟨line, hmem, hrest⟩ := addRelLines_irl ds g g' msg h'
      exact ⟨header :: ds, rfl, line, hmem, hrest⟩

/-- Witness for the amended C6: after one good line commits its edge, the
malformed third line stops ingestion with `InvalidRelationshipLine` naming
it, and the committed edge stays. -/
theorem invalid_relationship_line_behavior_witness :
    add_relationships_from_file (⟨[("A", []), ("B", [])], []⟩ : ChallengeGraph)
      (some ["Relationship ID1 Type1 ID2 Type2",
        "FRIENDS_WITH A Person B Person", "bad line"]) =
      ((⟨[("A", [("Type", "Person")]), ("B", [("Type", "Person")])],
        [("A", "B", "FRIENDS_WITH")]⟩ : ChallengeGraph),
        some (.invalidRelationshipLine
          ("Error processing relationship: " ++ strip "bad line"))) :=
  invalid_relationship_line_behavior.1
    (⟨[("A", []), ("B", [])], []⟩ : ChallengeGraph)
    (⟨[("A", [("Type", "Person")]), ("B", [("Type", "Person")])],
      [("A", "B", "FRIENDS_WITH")]⟩ : ChallengeGraph)
    "Relationship ID1 Type1 ID2 Type2" "bad line"
    ["FRIENDS_WITH A Person B Person"] [] (by decide) (by decide) (by decide)

/-- Claim C7 (missing source).  Both ingestion operations test that the
path resolves before opening or reading anything, so an unresolvable
source yields the missing-source error with the store exactly in its
pre-call state. -/
theorem missing_source_no_mutation (g : ChallengeGraph) :
    add_properties_from_file g none = (g, some .sourceNotFound) ∧
    add_relationships_from_file g none = (g, some .sourceNotFound) :=
  ⟨rfl, rfl⟩

/-- Claim C9 (unguarded short property lines).  A property source whose
data line has a single token makes ingestion fail with the index error of
`parse_property_line` (there is no domain error for malformed property
lines), and the store is untouched because parsing happens before any
node is written. -/
theorem property_short_line_index_error (g : ChallengeGraph) (header : String) :
    add_properties_from_file g (some [header, "A"]) = (g, some (.indexError "A")) ∧
    parse_property_line "A" = none :=
  ⟨rfl, rfl⟩

/-- Claim C10 (zero-line and header-only sources).  A resolvable but
completely empty file makes the header skip `next(fp)` raise an unhandled
`StopIteration` in both ingestion operations, leaving the store unchanged;
a file holding only a header line succeeds and also changes nothing. -/
theorem empty_file_stop_iteration (g : ChallengeGraph) (header : String) :
    add_properties_from_file g (some []) = (g, some .stopIteration) ∧
    add_relationships_from_file g (some []) = (g, some .stopIteration) ∧
    add_properties_from_file g (some [header]) = (g, none) ∧
    add_relationships_from_file g (some [header]) = (g, none) :=
  ⟨rfl, rfl, rfl, rfl⟩

/-- Claim C8 (the derived undirected edge set).  For both projections, the
derived edge set holds exactly the frozensets `{a, b}` for which some
directed edge `(a, b)` or `(b, a)` of the store passes the active filter:
direction is discarded, parallel duplicates collapse by set semantics, and
filtered-out edges contribute nothing. -/
theorem derived_edge_set_characterization (g : ChallengeGraph) (e : Finset String) :
    (e ∈ friendEdges g ↔ ∃ a b ℓ,
      ((a, b, ℓ) ∈ g.edges ∨ (b, a, ℓ) ∈ g.edges) ∧ ℓ = "FRIENDS_WITH" ∧
        e = {a, b}) ∧
    (e ∈ personEdges g ↔ ∃ a b ℓ,
      ((a, b, ℓ) ∈ g.edges ∨ (b, a, ℓ) ∈ g.edges) ∧
        nodeType g a = some "Person" ∧ nodeType g b = some "Person" ∧ e = {a, b}) := by
  constructor
  · constructor
    · intro he
      simp only [friendEdges, List.mem_toFinset, List.mem_map, List.mem_filter,
        beq_iff_eq] at he
      obtain ⟨⟨a, b, ℓ⟩, ⟨hmem, hrel⟩, heq⟩ := he
      exact ⟨a, b, ℓ, Or.inl hmem, hrel, heq.symm⟩
    · rintro ⟨a, b, ℓ, hmem | hmem, hrel, rfl⟩
      · simp only [friendEdges, List.mem_toFinset, List.mem_map, List.mem_filter,
          beq_iff_eq]
        exact ⟨(a, b, ℓ), ⟨hmem, hrel⟩, rfl⟩
      · simp only [friendEdges, List.mem_toFinset, List.mem_map, List.mem_filter,
          beq_iff_eq]
        exact ⟨(b, a, ℓ), ⟨hmem, hrel⟩, Finset.pair_comm b a⟩
  · constructor
    · intro he
      simp only [personEdges, List.mem_toFinset, List.mem_map, List.mem_filter,
        Bool.and_eq_true, beq_iff_eq] at he
      obtain ⟨⟨a, b, ℓ⟩, ⟨hmem, ht1, ht2⟩, heq⟩ := he
      exact ⟨a, b, ℓ, Or.inl hmem, ht1, ht2, heq.symm⟩
    · rintro ⟨a, b, ℓ, hmem | hmem, ht1, ht2, rfl⟩
      · simp only [personEdges, List.mem_toFinset, List.mem_map, List.mem_filter,
          Bool.and_eq_true, beq_iff_eq]
        exact ⟨(a, b, ℓ), ⟨hmem, ht1, ht2⟩, rfl⟩
      · simp only [personEdges, List.mem_toFinset, List.mem_map, List.mem_filter,
          Bool.and_eq_true, beq_iff_eq]
        exact ⟨(b, a, ℓ), ⟨hmem, ht2, ht1⟩, Finset.pair_comm b a⟩

/-- Membership characterisation of the embedded library enumeration:
exactly the non-empty pairwise-connected subsets of the derived nodes. -/
theorem mem_enumerate_all_cliques (E : Finset (Finset String)) (s : Finset String) :
    s ∈ enumerate_all_cliques E ↔
      s.Nonempty ∧ s ⊆ derivedNodes E ∧
        ∀ a ∈ s, ∀ b ∈ s, a ≠ b → ({a, b} : Finset String) ∈ E := by
  constructor
  · intro h
    simp only [enumerate_all_cliques, Finset.mem_filter, Finset.mem_powerset] at h
    exact ⟨h.2.1, h.1, h.2.2⟩
  · rintro ⟨h1, h2, h3⟩
    simp only [enumerate_all_cliques, Finset.mem_filter, Finset.mem_powerset]
    exact ⟨h2, h1, h3⟩

theorem buildUndirected_some {E C : Finset (Finset String)}
    (h : (buildUndirected E).map enumerate_all_cliques = some C) :
    C = enumerate_all_cliques E := by
  unfold buildUndirected at h
  by_cases hP : E.filter (fun e => ¬e.card = 2) = ∅
  · rw [if_pos hP] at h
    simp only [Option.map_some', Option.some.injEq] at h
    exact h.symm
  · rw [if_neg hP] at h
    simp at h

theorem buildUndirected_none {E : Finset (Finset String)}
    (h : ¬(∀ e ∈ E, e.card = 2)) : buildUndirected E = none := by
  unfold buildUndirected
  rw [if_neg]
  rw [Finset.filter_eq_empty_iff]
  simpa using h

/-- Counterexample to claim C1: a store whose ingestion succeeded but which
carries a surviving self-loop edge.  The projection produces the 1-element
frozenset, which is a pairwise-connected non-empty subset of the derived
node set, yet both enumerations raise the networkx error (on the
unpacking of the 1-element frozenset) instead of returning any clique. -/
theorem all_cliques_selfloop_cex :
    add_relationships_from_file (⟨[("A", [])], []⟩ : ChallengeGraph)
      (some ["Relationship ID1 Type1 ID2 Type2", "FRIENDS_WITH A Person A Person"]) =
      ((⟨[("A", [("Type", "Person")])], [("A", "A", "FRIENDS_WITH")]⟩ : ChallengeGraph),
        none) ∧
    friendEdges (⟨[("A", [("Type", "Person")])],
      [("A", "A", "FRIENDS_WITH")]⟩ : ChallengeGraph) = {{"A"}} ∧
    derivedNodes (friendEdges (⟨[("A", [("Type", "Person")])],
      [("A", "A", "FRIENDS_WITH")]⟩ : ChallengeGraph)) = {"A"} ∧
    find_friend_cliques (⟨[("A", [("Type", "Person")])],
      [("A", "A", "FRIENDS_WITH")]⟩ : ChallengeGraph) = none ∧
    find_person_cliques (⟨[("A", [("Type", "Person")])],
      [("A", "A", "FRIENDS_WITH")]⟩ : ChallengeGraph) = none := by
  decide

/-- Amended claim C1 (all-cliques completeness away from self-loops).
Whenever enumeration completes — exactly when every surviving projected
edge joins two distinct endpoints — it returns every non-empty subset of
the derived nodes that is pairwise connected, not only maximal cliques;
when some surviving edge is a self-loop, enumeration instead raises the
networkx error and returns nothing.  On the triangle scenario, built by
ingesting the two concrete sources, both enumerations return exactly the
seven cliques: three singletons, three pairs and the triple. -/
theorem all_cliques_complete :
    (∀ (g : ChallengeGraph) (C : Finset (Finset String)) (s : Finset String),
      find_friend_cliques g = some C →
      (s ∈ C ↔ s.Nonempty ∧ s ⊆ derivedNodes (friendEdges g) ∧
        ∀ a ∈ s, ∀ b ∈ s, a ≠ b → ({a, b} : Finset String) ∈ friendEdges g)) ∧
    (∀ (g : ChallengeGraph) (C : Finset (Finset String)) (s : Finset String),
      find_person_cliques g = some C →
      (s ∈ C ↔ s.Nonempty ∧ s ⊆ derivedNodes (personEdges g) ∧
        ∀ a ∈ s, ∀ b ∈ s, a ≠ b → ({a, b} : Finset String) ∈ personEdges g)) ∧
    (∀ g : ChallengeGraph, ¬(∀ e ∈ friendEdges g, e.card = 2) →
      find_friend_cliques g = none) ∧
    (∀ g : ChallengeGraph, ¬(∀ e ∈ personEdges g, e.card = 2) →
      find_person_cliques g = none) ∧
    (add_properties_from_file ChallengeGraph.empty (some triPropLines)).2 = none ∧
    (add_relationships_from_file
      (add_properties_from_file ChallengeGraph.empty (some triPropLines)).1
      (some triRelLines)).2 = none ∧
    find_friend_cliques triGraph = some triCliques ∧
    find_person_cliques triGraph = some triCliques ∧
    triCliques.card = 7 := by
  refine ⟨?_, ?_, ?_, ?_, by decide, by decide, find_friend_cliques_triGraph,
    find_person_cliques_triGraph, by decide⟩
  · intro g C s h
    rw [buildUndirected_some h, mem_enumerate_all_cliques]
  · intro g C s h
    rw [buildUndirected_some h, mem_enumerate_all_cliques]
  · intro g h
    simp [find_friend_cliques, buildUndirected_none h]
  · intro g h
    simp [find_person_cliques, buildUndirected_none h]

/-- Witness for the amended C1: on the triangle, the pair clique is among
the returned cliques by the characterisation, and the self-loop store
makes friend-clique enumeration return the error outcome. -/
theorem all_cliques_complete_witness :
    ({"A", "B"} : Finset String) ∈ triCliques ∧
    find_friend_cliques (⟨[("A", [("Type", "Person")])],
      [("A", "A", "FRIENDS_WITH")]⟩ : ChallengeGraph) = none :=
  ⟨(all_cliques_complete.1 triGraph triCliques {"A", "B"} find_friend_cliques_triGraph).mpr
      ⟨by decide, by decide, by decide⟩,
    all_cliques_complete.2.2.1 _ (by decide)⟩
